import Mathlib

set_option maxHeartbeats 1000000

/-!
Shallow embedding of tpm_futurepcr's measurement-log replay.

The embedding covers the main pass of `src/tpm_futurepcr/__init__.py`
(event classification, dual hash-chain folding, compare / output / exit
disposition) together with the PCR extend primitive and reset values,
which the older variant `src/lib/__init__.py` spells out inline.

Bytes are modelled as `Nat`, digests as `List Nat`.  External
collaborators (the hash function, the PE/COFF image hasher, the
device-path resolver, the systemd-boot loader predictor and the live PCR
reader) are oracle functions collected in `Env`; filesystem paths and
command lines are abstracted as `Nat` identifiers.  A resolver oracle
returning `none` models the exception / FileNotFoundError paths of the
Python code.
-/

def PCR_SIZE : Nat := 20

def NUM_PCRS : Nat := 24

/-- Windows virtual PCR index `0xFFFFFFFF`, filtered by the pass. -/
def VIRTUAL_PCR_SENTINEL : Nat := 4294967295

/-- Event types relevant to the resolver, as a closed variant. -/
inductive TpmEventType where
  | EFI_BOOT_SERVICES_APPLICATION
  | IPL
  | NO_ACTION
  | Other (tag : Nat)
deriving DecidableEq

/-- One measurement-log entry, as produced by `enum_log_entries`:
register index, event type, raw payload bytes, and the optional SHA-1
bank extend digest (`none` when the key `pcr_extend_value` is absent). -/
structure Event where
  pcr_idx : Nat
  event_type : TpmEventType
  event_data : List Nat
  pcr_extend_value : Option (List Nat)
deriving DecidableEq

/-- Oracles for the external collaborators of the pass.  `H` is the
legacy digest function (SHA-1) used both for PCR extension and for
`hash_bytes` on the encoded command line.  `device_path_to_unix_path`
combines `parse_efi_bsa_event` with the device-path resolver; `none`
models the exception path.  `loader_get_next_cmdline` returning `none`
models `FileNotFoundError`.  `read_current_pcrs` is the live reader. -/
structure Env where
  H : List Nat → List Nat
  hash_pecoff : Nat → List Nat
  device_path_to_unix_path : List Nat → Option Nat
  loader_get_next_cmdline : Option Nat → Option Nat
  loader_encode_pcr8 : Nat → List Nat
  read_current_pcrs : Nat → List Nat

/-- Parsed command-line arguments of `main`.  `pcr_list` is the already
split `-L` list (in the order the user wrote it), `output` the `-o`
target. -/
structure Args where
  pcr_list : Option (List Nat)
  output : Option Nat
  compare : Bool
  verbose : Bool
deriving DecidableEq

/-- The mutable state of the pass: the two PCR mappings, the last
resolved EFI binary path, and the error tally. -/
structure LoopState where
  this_pcrs : Nat → List Nat
  next_pcrs : Nat → List Nat
  last_efi_binary : Option Nat
  errors : Nat

/-- Modelled from the spec: `init_empty_pcrs` is defined outside `src/`.
Reset values per the spec's data model (locality-reset set {17..22} is
all-one-bits, others all-zero), matching the inline dictionary setup in
`src/lib/__init__.py` lines 22-23. -/
def init_empty_pcrs : Nat → List Nat :=
  fun i => if i ∈ [17, 18, 19, 20, 21, 22] then List.replicate PCR_SIZE 255
           else List.replicate PCR_SIZE 0

/-- Modelled from the spec: `extend_pcr_with_hash` is defined outside
`src/`.  Extension rule `H(pcr || value)`, matching the inline
`hashlib.sha1(pcr + value).digest()` in `src/lib/__init__.py` lines
48-49. -/
def extend_pcr_with_hash (H : List Nat → List Nat) (pcr value : List Nat) : List Nat :=
  H (pcr ++ value)

/-- The dictionary update `state[index] = extend_pcr_with_hash(state[index], digest)`
as a state transformer: the sole state-transition primitive of the bank. -/
def extend (H : List Nat → List Nat) (state : Nat → List Nat) (index : Nat)
    (digest : List Nat) : Nat → List Nat :=
  fun j => if j = index then extend_pcr_with_hash H (state index) digest else state j

/-- Outcome of the EFI_BOOT_SERVICES_APPLICATION stage for one entry. -/
inductive BsaResult where
  | proceed (next_extend_value : List Nat) (last_efi_binary : Option Nat) (errors : Nat)
  | skipEntry
  | fatal

/-- The BSA stage of the loop body (`src/tpm_futurepcr/__init__.py`
lines 57-83): resolve the device path; on success rehash the binary and
record the path; on failure either skip the entry (verbose, tally set
to 1) or abort (strict).  Non-BSA entries pass through unchanged. -/
def bsa_step (env : Env) (args : Args) (s : LoopState) (e : Event)
    (this_extend_value : List Nat) : BsaResult :=
  if e.event_type = TpmEventType.EFI_BOOT_SERVICES_APPLICATION then
    match env.device_path_to_unix_path e.event_data with
    | some unix_path =>
        BsaResult.proceed (env.hash_pecoff unix_path) (some unix_path) s.errors
    | none =>
        if args.verbose then BsaResult.skipEntry else BsaResult.fatal
  else BsaResult.proceed this_extend_value s.last_efi_binary s.errors

/-- One iteration of the event loop (`src/tpm_futurepcr/__init__.py`
lines 39-108).  `Except.error ()` models the strict-mode `exit(1)`;
`Except.ok` carries the updated state for the next iteration. -/
def process_event (env : Env) (args : Args) (wanted_pcrs : List Nat)
    (s : LoopState) (e : Event) : Except Unit LoopState :=
  match e.pcr_extend_value with
  | none => Except.ok s
  | some this_extend_value =>
    if e.pcr_idx = VIRTUAL_PCR_SENTINEL then Except.ok s
    else
      match bsa_step env args s e this_extend_value with
      | BsaResult.skipEntry => Except.ok { s with errors := 1 }
      | BsaResult.fatal => Except.error ()
      | BsaResult.proceed nev1 leb errs =>
        let next_extend_value :=
          if e.event_type = TpmEventType.IPL ∧ e.pcr_idx ∈ wanted_pcrs then
            match env.loader_get_next_cmdline leb with
            | some cmdline => env.H (env.loader_encode_pcr8 cmdline)
            | none => nev1
          else nev1
        if e.event_type ≠ TpmEventType.NO_ACTION then
          Except.ok { this_pcrs := extend env.H s.this_pcrs e.pcr_idx this_extend_value,
                      next_pcrs := extend env.H s.next_pcrs e.pcr_idx next_extend_value,
                      last_efi_binary := leb, errors := errs }
        else
          Except.ok { s with last_efi_binary := leb, errors := errs }

/-- The whole forward pass over the log. -/
def run_events (env : Env) (args : Args) (wanted_pcrs : List Nat) :
    LoopState → List Event → Except Unit LoopState
  | s, [] => Except.ok s
  | s, e :: rest =>
    match process_event env args wanted_pcrs s e with
    | Except.ok s2 => run_events env args wanted_pcrs s2 rest
    | Except.error u => Except.error u

/-- State at the top of `main`: both mappings at their reset values,
no binary seen, tally zero (`src/tpm_futurepcr/__init__.py` lines 34-37). -/
def initial_state : LoopState :=
  { this_pcrs := init_empty_pcrs, next_pcrs := init_empty_pcrs,
    last_efi_binary := none, errors := 0 }

/-- The register list the caller asked for: the parsed `-L` list as
given, or all of `0..23` (`src/tpm_futurepcr/__init__.py` lines 27-32). -/
def wanted_of (args : Args) : List Nat :=
  match args.pcr_list with
  | some l => l
  | none => List.range NUM_PCRS

/-- The compare-mode mismatch count: `errors` is reset to 0 and bumped
once per requested register whose live value differs from the computed
current value (`src/tpm_futurepcr/__init__.py` lines 113-120). -/
def count_mismatches (env : Env) (s : LoopState) (wanted_pcrs : List Nat) : Nat :=
  wanted_pcrs.foldl
    (fun errors idx =>
      if env.read_current_pcrs idx = s.this_pcrs idx then errors else errors + 1) 0

/-- Observable outcome of one run of `main`: process exit code, whether
the final current/predicted table was printed, and the bytes written to
the `-o` target (`none` when no file was written). -/
structure MainResult where
  exit_code : Nat
  table_printed : Bool
  output_written : Option (List Nat)
deriving DecidableEq

/-- The post-loop disposition of `main` (`src/tpm_futurepcr/__init__.py`
lines 110-137), composed with the pass itself: compare mode exits on the
mismatch count alone; otherwise a nonzero tally exits 1 before any
output is written; otherwise the predicted digests of the requested
registers are concatenated in request order. -/
def tpm_futurepcr.main (env : Env) (args : Args) (events : List Event) : MainResult :=
  let wanted_pcrs := wanted_of args
  match run_events env args wanted_pcrs initial_state events with
  | Except.error _ =>
      { exit_code := 1, table_printed := false, output_written := none }
  | Except.ok s =>
    if args.compare then
      { exit_code := if count_mismatches env s wanted_pcrs > 0 then 1 else 0,
        table_printed := false, output_written := none }
    else
      let table_printed := args.verbose || args.output.isNone
      if s.errors ≠ 0 then
        { exit_code := 1, table_printed := table_printed, output_written := none }
      else
        match args.output with
        | some _ =>
            { exit_code := 0, table_printed := table_printed,
              output_written := some ((wanted_pcrs.map s.next_pcrs).flatten) }
        | none =>
            { exit_code := 0, table_printed := table_printed, output_written := none }

/-- An entry is classified divergent when the pass substitutes a
predicted extend value differing in provenance from the logged one: a
BSA entry whose device path resolves (rehash branch) or an IPL entry on
a requested register whose command-line prediction succeeds. -/
def classified_divergent (env : Env) (wanted_pcrs : List Nat) (leb : Option Nat)
    (e : Event) : Bool :=
  e.pcr_extend_value.isSome &&
  decide (e.pcr_idx ≠ VIRTUAL_PCR_SENTINEL) &&
  ((decide (e.event_type = TpmEventType.EFI_BOOT_SERVICES_APPLICATION) &&
      (env.device_path_to_unix_path e.event_data).isSome) ||
   (decide (e.event_type = TpmEventType.IPL) && decide (e.pcr_idx ∈ wanted_pcrs) &&
      (env.loader_get_next_cmdline leb).isSome))

/-- No entry of the list, processed from state `s` on, both touches
register `i` and is classified divergent at its point of the pass. -/
def no_divergent_touching (env : Env) (args : Args) (wanted_pcrs : List Nat)
    (i : Nat) : LoopState → List Event → Bool
  | _, [] => true
  | s, e :: rest =>
    (!(decide (e.pcr_idx = i)) ||
      !(classified_divergent env wanted_pcrs s.last_efi_binary e)) &&
    (match process_event env args wanted_pcrs s e with
     | Except.ok s2 => no_divergent_touching env args wanted_pcrs i s2 rest
     | Except.error _ => true)

/-- Projection of an `Except` run result onto its final state, with a
default for the error case; used to state closed instances. -/
def get_ok (r : Except Unit LoopState) (d : LoopState) : LoopState :=
  match r with
  | Except.ok s => s
  | Except.error _ => d

/-! ## Concrete fixtures used by witnesses and counterexamples -/

/-- A computable stand-in hash used to instantiate the `H` oracle. -/
def testH : List Nat → List Nat :=
  fun l => (l.length % 256) :: (l.foldl (fun a b => (a + b) % 256) 0) :: List.replicate 18 7

/-- Oracle set in which every resolver fails. -/
def envFail : Env :=
  { H := testH
    hash_pecoff := fun p => List.replicate PCR_SIZE (p % 256)
    device_path_to_unix_path := fun _ => none
    loader_get_next_cmdline := fun _ => none
    loader_encode_pcr8 := fun c => [c % 256]
    read_current_pcrs := fun _ => List.replicate PCR_SIZE 0 }

/-- Oracle set in which the device-path resolver and loader predictor
succeed. -/
def envOk : Env :=
  { envFail with
    device_path_to_unix_path := fun _ => some 5
    loader_get_next_cmdline := fun _ => some 9 }

def dA : List Nat := List.replicate PCR_SIZE 17

def dB : List Nat := List.replicate PCR_SIZE 34

def evOtherA : Event :=
  { pcr_idx := 0, event_type := TpmEventType.Other 3, event_data := [],
    pcr_extend_value := some dA }

def evOtherB : Event :=
  { pcr_idx := 0, event_type := TpmEventType.Other 4, event_data := [],
    pcr_extend_value := some dB }

def evBsa : Event :=
  { pcr_idx := 4, event_type := TpmEventType.EFI_BOOT_SERVICES_APPLICATION,
    event_data := [1, 2], pcr_extend_value := some dA }

def evIpl : Event :=
  { pcr_idx := 8, event_type := TpmEventType.IPL, event_data := [0],
    pcr_extend_value := some dB }

def evNoAction : Event :=
  { pcr_idx := 0, event_type := TpmEventType.NO_ACTION, event_data := [],
    pcr_extend_value := some dA }

def argsVerbose : Args :=
  { pcr_list := some [0, 4, 8], output := none, compare := false, verbose := true }

def argsStrict : Args :=
  { pcr_list := some [0, 4, 8], output := none, compare := false, verbose := false }

/-- Arguments for a strict compare-mode run on register 0. -/
def argsCompare : Args :=
  { pcr_list := some [0], output := none, compare := true, verbose := false }

/-- Arguments for a verbose compare-mode run on register 0. -/
def argsCompareVerbose : Args :=
  { pcr_list := some [0], output := none, compare := true, verbose := true }

/-- Arguments requesting verbose processing with an output target. -/
def argsOut : Args :=
  { pcr_list := some [0], output := some 7, compare := false, verbose := true }

/-- Arguments requesting output for registers 17 then 0, in that order. -/
def argsDescending : Args :=
  { pcr_list := some [17, 0], output := some 7, compare := false, verbose := false }

/-! ## Characterization lemmas for one loop iteration -/

theorem extend_self (H : List Nat → List Nat) (state : Nat → List Nat)
    (index : Nat) (digest : List Nat) :
    extend H state index digest index = H (state index ++ digest) := by
  simp [extend, extend_pcr_with_hash]

theorem extend_other (H : List Nat → List Nat) (state : Nat → List Nat)
    (index : Nat) (digest : List Nat) {j : Nat} (hj : j ≠ index) :
    extend H state index digest j = state j := by
  simp [extend, hj]

theorem process_event_no_extend (env : Env) (args : Args) (wanted_pcrs : List Nat)
    (s : LoopState) (e : Event) (hev : e.pcr_extend_value = none) :
    process_event env args wanted_pcrs s e = Except.ok s := by
  simp [process_event, hev]

theorem process_event_sentinel (env : Env) (args : Args) (wanted_pcrs : List Nat)
    (s : LoopState) (e : Event) (v : List Nat) (hev : e.pcr_extend_value = some v)
    (hidx : e.pcr_idx = VIRTUAL_PCR_SENTINEL) :
    process_event env args wanted_pcrs s e = Except.ok s := by
  simp [process_event, hev, hidx]

theorem process_event_other_type (env : Env) (args : Args) (wanted_pcrs : List Nat)
    (s : LoopState) (e : Event) (v : List Nat) (t : Nat)
    (hev : e.pcr_extend_value = some v)
    (hidx : e.pcr_idx ≠ VIRTUAL_PCR_SENTINEL)
    (htype : e.event_type = TpmEventType.Other t) :
    process_event env args wanted_pcrs s e =
      Except.ok { s with this_pcrs := extend env.H s.this_pcrs e.pcr_idx v,
                         next_pcrs := extend env.H s.next_pcrs e.pcr_idx v } := by
  simp [process_event, hev, hidx, bsa_step, htype]

theorem process_event_noaction (env : Env) (args : Args) (wanted_pcrs : List Nat)
    (s : LoopState) (e : Event) (v : List Nat)
    (hev : e.pcr_extend_value = some v)
    (hidx : e.pcr_idx ≠ VIRTUAL_PCR_SENTINEL)
    (htype : e.event_type = TpmEventType.NO_ACTION) :
    process_event env args wanted_pcrs s e = Except.ok s := by
  simp [process_event, hev, hidx, bsa_step, htype]

theorem process_event_bsa_ok (env : Env) (args : Args) (wanted_pcrs : List Nat)
    (s : LoopState) (e : Event) (v : List Nat) (p : Nat)
    (hev : e.pcr_extend_value = some v)
    (hidx : e.pcr_idx ≠ VIRTUAL_PCR_SENTINEL)
    (htype : e.event_type = TpmEventType.EFI_BOOT_SERVICES_APPLICATION)
    (hres : env.device_path_to_unix_path e.event_data = some p) :
    process_event env args wanted_pcrs s e =
      Except.ok { this_pcrs := extend env.H s.this_pcrs e.pcr_idx v,
                  next_pcrs := extend env.H s.next_pcrs e.pcr_idx (env.hash_pecoff p),
                  last_efi_binary := some p, errors := s.errors } := by
  simp [process_event, hev, hidx, bsa_step, htype, hres]

theorem process_event_bsa_fail_verbose (env : Env) (args : Args) (wanted_pcrs : List Nat)
    (s : LoopState) (e : Event) (v : List Nat)
    (hev : e.pcr_extend_value = some v)
    (hidx : e.pcr_idx ≠ VIRTUAL_PCR_SENTINEL)
    (htype : e.event_type = TpmEventType.EFI_BOOT_SERVICES_APPLICATION)
    (hres : env.device_path_to_unix_path e.event_data = none)
    (hverb : args.verbose = true) :
    process_event env args wanted_pcrs s e = Except.ok { s with errors := 1 } := by
  simp [process_event, hev, hidx, bsa_step, htype, hres, hverb]

theorem process_event_bsa_fail_strict (env : Env) (args : Args) (wanted_pcrs : List Nat)
    (s : LoopState) (e : Event) (v : List Nat)
    (hev : e.pcr_extend_value = some v)
    (hidx : e.pcr_idx ≠ VIRTUAL_PCR_SENTINEL)
    (htype : e.event_type = TpmEventType.EFI_BOOT_SERVICES_APPLICATION)
    (hres : env.device_path_to_unix_path e.event_data = none)
    (hverb : args.verbose = false) :
    process_event env args wanted_pcrs s e = Except.error () := by
  simp [process_event, hev, hidx, bsa_step, htype, hres, hverb]

theorem process_event_ipl_predicted (env : Env) (args : Args) (wanted_pcrs : List Nat)
    (s : LoopState) (e : Event) (v : List Nat) (c : Nat)
    (hev : e.pcr_extend_value = some v)
    (hidx : e.pcr_idx ≠ VIRTUAL_PCR_SENTINEL)
    (htype : e.event_type = TpmEventType.IPL)
    (hw : e.pcr_idx ∈ wanted_pcrs)
    (hcl : env.loader_get_next_cmdline s.last_efi_binary = some c) :
    process_event env args wanted_pcrs s e =
      Except.ok { s with
        this_pcrs := extend env.H s.this_pcrs e.pcr_idx v,
        next_pcrs := extend env.H s.next_pcrs e.pcr_idx
          (env.H (env.loader_encode_pcr8 c)) } := by
  simp [process_event, hev, hidx, bsa_step, htype, hw, hcl]

theorem process_event_ipl_fallback (env : Env) (args : Args) (wanted_pcrs : List Nat)
    (s : LoopState) (e : Event) (v : List Nat)
    (hev : e.pcr_extend_value = some v)
    (hidx : e.pcr_idx ≠ VIRTUAL_PCR_SENTINEL)
    (htype : e.event_type = TpmEventType.IPL)
    (hw : e.pcr_idx ∈ wanted_pcrs)
    (hcl : env.loader_get_next_cmdline s.last_efi_binary = none) :
    process_event env args wanted_pcrs s e =
      Except.ok { s with this_pcrs := extend env.H s.this_pcrs e.pcr_idx v,
                         next_pcrs := extend env.H s.next_pcrs e.pcr_idx v } := by
  simp [process_event, hev, hidx, bsa_step, htype, hw, hcl]

theorem process_event_ipl_unwanted (env : Env) (args : Args) (wanted_pcrs : List Nat)
    (s : LoopState) (e : Event) (v : List Nat)
    (hev : e.pcr_extend_value = some v)
    (hidx : e.pcr_idx ≠ VIRTUAL_PCR_SENTINEL)
    (htype : e.event_type = TpmEventType.IPL)
    (hw : e.pcr_idx ∉ wanted_pcrs) :
    process_event env args wanted_pcrs s e =
      Except.ok { s with this_pcrs := extend env.H s.this_pcrs e.pcr_idx v,
                         next_pcrs := extend env.H s.next_pcrs e.pcr_idx v } := by
  simp [process_event, hev, hidx, bsa_step, htype, hw]

theorem run_events_nil (env : Env) (args : Args) (wanted_pcrs : List Nat)
    (s : LoopState) : run_events env args wanted_pcrs s [] = Except.ok s := rfl

theorem run_events_step (env : Env) (args : Args) (wanted_pcrs : List Nat)
    {s s2 : LoopState} {e : Event} (rest : List Event)
    (h : process_event env args wanted_pcrs s e = Except.ok s2) :
    run_events env args wanted_pcrs s (e :: rest) =
      run_events env args wanted_pcrs s2 rest := by
  simp [run_events, h]

theorem run_events_abort (env : Env) (args : Args) (wanted_pcrs : List Nat)
    {s : LoopState} {e : Event} (rest : List Event)
    (h : process_event env args wanted_pcrs s e = Except.error ()) :
    run_events env args wanted_pcrs s (e :: rest) = Except.error () := by
  simp [run_events, h]

/-! ## Claim theorems -/

/-- C1: the extend operation is the sole state transition: for an index
in 0-23 and a 20-byte digest `d`, extending replaces `state[index]` with
`H(state[index] ++ d)` and leaves every other index unchanged; any
accepted loop iteration changes each chain either not at all or through
`extend` at the entry's index; and for register 0 receiving two
consecutive non-divergent entries with extend values `A` then `B`, both
chains end at `H(H(H_init ++ A) ++ B)` with `H_init` the all-zero reset
value. -/
theorem C1_extend_sole_transition_chain :
    (∀ (H : List Nat → List Nat) (state : Nat → List Nat) (index : Nat) (d : List Nat),
      index < NUM_PCRS → d.length = PCR_SIZE →
      extend H state index d index = H (state index ++ d) ∧
      ∀ j, j ≠ index → extend H state index d j = state j) ∧
    (∀ (env : Env) (args : Args) (wanted_pcrs : List Nat) (s : LoopState)
      (e : Event) (s2 : LoopState),
      process_event env args wanted_pcrs s e = Except.ok s2 →
      (s2.this_pcrs = s.this_pcrs ∨
        ∃ v, s2.this_pcrs = extend env.H s.this_pcrs e.pcr_idx v) ∧
      (s2.next_pcrs = s.next_pcrs ∨
        ∃ v, s2.next_pcrs = extend env.H s.next_pcrs e.pcr_idx v)) ∧
    (∀ (env : Env) (args : Args) (wanted_pcrs : List Nat) (t1 t2 : Nat)
      (A B : List Nat) (s2 : LoopState),
      run_events env args wanted_pcrs initial_state
        [{ pcr_idx := 0, event_type := TpmEventType.Other t1, event_data := [],
           pcr_extend_value := some A },
         { pcr_idx := 0, event_type := TpmEventType.Other t2, event_data := [],
           pcr_extend_value := some B }] = Except.ok s2 →
      s2.this_pcrs 0 = env.H (env.H (List.replicate PCR_SIZE 0 ++ A) ++ B) ∧
      s2.next_pcrs 0 = s2.this_pcrs 0) := by
  refine ⟨fun H state index d _ _ => ⟨extend_self H state index d, ?_⟩, ?_, ?_⟩
  · exact fun j hj => extend_other H state index d hj
  · intro env args wanted_pcrs s e s2 h
    obtain ⟨idx, et, ed, ev⟩ := e
    cases ev with
    | none =>
      simp only [process_event] at h
      cases h
      exact ⟨Or.inl rfl, Or.inl rfl⟩
    | some v =>
      simp only [process_event] at h
      split at h
      · cases h
        exact ⟨Or.inl rfl, Or.inl rfl⟩
      · split at h
        · cases h
          exact ⟨Or.inl rfl, Or.inl rfl⟩
        · cases h
        · split at h
          · cases h
            exact ⟨Or.inr ⟨_, rfl⟩, Or.inr ⟨_, rfl⟩⟩
          · cases h
            exact ⟨Or.inl rfl, Or.inl rfl⟩
  · intro env args wanted_pcrs t1 t2 A B s2 h
    simp only [run_events, process_event, bsa_step, VIRTUAL_PCR_SENTINEL,
      initial_state] at h
    cases h
    have h0 : init_empty_pcrs 0 = List.replicate PCR_SIZE 0 := by decide
    have hneq : ∀ t : Nat, (TpmEventType.Other t = TpmEventType.IPL) = False := by
      intro t
      simp
    constructor
    · simp only [extend_self, h0, hneq, false_and, if_false]
    · simp only [extend_self, h0, hneq, false_and, if_false]

theorem C1_extend_sole_transition_chain_witness :
    extend testH init_empty_pcrs 0 dA 0 = testH (init_empty_pcrs 0 ++ dA) ∧
    (get_ok (run_events envFail argsVerbose [0, 4, 8] initial_state [evOtherA, evOtherB])
        initial_state).this_pcrs 0 =
      envFail.H (envFail.H (List.replicate PCR_SIZE 0 ++ dA) ++ dB) :=
  ⟨(C1_extend_sole_transition_chain.1 testH init_empty_pcrs 0 dA (by decide) (by decide)).1,
   (C1_extend_sole_transition_chain.2.2 envFail argsVerbose [0, 4, 8] 3 4 dA dB
      (get_ok (run_events envFail argsVerbose [0, 4, 8] initial_state [evOtherA, evOtherB])
        initial_state) rfl).1⟩

/-- C2: before any entry is folded, both state mappings give every one
of the 24 register indices a 20-byte digest: registers 17 through 22
hold 20 bytes of `0xFF`, every other register 20 bytes of `0x00`, and
the current and predicted mappings are bit-identical. -/
theorem C2_reset_values :
    (∀ i, i < NUM_PCRS →
      initial_state.this_pcrs i =
        (if 17 ≤ i ∧ i ≤ 22 then List.replicate PCR_SIZE 255
         else List.replicate PCR_SIZE 0) ∧
      (initial_state.this_pcrs i).length = PCR_SIZE) ∧
    (∀ i, initial_state.next_pcrs i = initial_state.this_pcrs i) := by
  constructor
  · intro i hi
    have h24 : i < 24 := hi
    interval_cases i <;> exact ⟨by decide, by decide⟩
  · intro i
    rfl

theorem C2_reset_values_witness :
    initial_state.this_pcrs 17 = List.replicate PCR_SIZE 255 ∧
    initial_state.this_pcrs 0 = List.replicate PCR_SIZE 0 ∧
    initial_state.next_pcrs 17 = initial_state.this_pcrs 17 := by
  refine ⟨?_, ?_, C2_reset_values.2 17⟩
  · have h := (C2_reset_values.1 17 (by decide)).1
    simpa using h
  · have h := (C2_reset_values.1 0 (by decide)).1
    simpa using h

/-- C3: a BSA entry whose device path resolves is recorded as the last
EFI binary, the predicted chain folds the PE/COFF image hash of the
resolved file while the current chain folds the logged extend value,
and no other register changes in either state. -/
theorem C3_bsa_divergence :
    ∀ (env : Env) (args : Args) (wanted_pcrs : List Nat) (s : LoopState)
      (e : Event) (L : List Nat) (p : Nat),
      e.event_type = TpmEventType.EFI_BOOT_SERVICES_APPLICATION →
      e.pcr_extend_value = some L →
      e.pcr_idx ≠ VIRTUAL_PCR_SENTINEL →
      env.device_path_to_unix_path e.event_data = some p →
      process_event env args wanted_pcrs s e =
        Except.ok { this_pcrs := extend env.H s.this_pcrs e.pcr_idx L,
                    next_pcrs := extend env.H s.next_pcrs e.pcr_idx (env.hash_pecoff p),
                    last_efi_binary := some p, errors := s.errors } ∧
      extend env.H s.this_pcrs e.pcr_idx L e.pcr_idx =
        env.H (s.this_pcrs e.pcr_idx ++ L) ∧
      extend env.H s.next_pcrs e.pcr_idx (env.hash_pecoff p) e.pcr_idx =
        env.H (s.next_pcrs e.pcr_idx ++ env.hash_pecoff p) ∧
      ∀ j, j ≠ e.pcr_idx →
        extend env.H s.this_pcrs e.pcr_idx L j = s.this_pcrs j ∧
        extend env.H s.next_pcrs e.pcr_idx (env.hash_pecoff p) j = s.next_pcrs j := by
  intro env args wanted_pcrs s e L p htype hev hidx hres
  exact ⟨process_event_bsa_ok env args wanted_pcrs s e L p hev hidx htype hres,
    extend_self _ _ _ _, extend_self _ _ _ _,
    fun j hj => ⟨extend_other _ _ _ _ hj, extend_other _ _ _ _ hj⟩⟩

theorem C3_bsa_divergence_witness :
    process_event envOk argsVerbose [0, 4, 8] initial_state evBsa =
      Except.ok { this_pcrs := extend envOk.H initial_state.this_pcrs 4 dA,
                  next_pcrs := extend envOk.H initial_state.next_pcrs 4
                    (envOk.hash_pecoff 5),
                  last_efi_binary := some 5, errors := 0 } ∧
    extend envOk.H initial_state.this_pcrs 4 dA 3 = initial_state.this_pcrs 3 :=
  ⟨(C3_bsa_divergence envOk argsVerbose [0, 4, 8] initial_state evBsa dA 5
      rfl rfl (by decide) rfl).1,
   ((C3_bsa_divergence envOk argsVerbose [0, 4, 8] initial_state evBsa dA 5
      rfl rfl (by decide) rfl).2.2.2 3 (by decide)).1⟩

/-- C5: an IPL entry on a requested register for which the loader
predictor reports "environment not recognized" is absorbed: both chains
fold the logged value, so predicted and current stay equal at that
index when they were equal before, and the pass continues. -/
theorem C5_ipl_graceful_fallback :
    ∀ (env : Env) (args : Args) (wanted_pcrs : List Nat) (s : LoopState)
      (e : Event) (v : List Nat),
      e.event_type = TpmEventType.IPL →
      e.pcr_idx ∈ wanted_pcrs →
      e.pcr_idx ≠ VIRTUAL_PCR_SENTINEL →
      e.pcr_extend_value = some v →
      env.loader_get_next_cmdline s.last_efi_binary = none →
      process_event env args wanted_pcrs s e =
        Except.ok { s with this_pcrs := extend env.H s.this_pcrs e.pcr_idx v,
                           next_pcrs := extend env.H s.next_pcrs e.pcr_idx v } ∧
      (s.next_pcrs e.pcr_idx = s.this_pcrs e.pcr_idx →
        extend env.H s.next_pcrs e.pcr_idx v e.pcr_idx =
          extend env.H s.this_pcrs e.pcr_idx v e.pcr_idx) := by
  intro env args wanted_pcrs s e v htype hw hidx hev hcl
  refine ⟨process_event_ipl_fallback env args wanted_pcrs s e v hev hidx htype hw hcl, ?_⟩
  intro heq
  rw [extend_self, extend_self, heq]

theorem C5_ipl_graceful_fallback_witness :
    process_event envFail argsVerbose [0, 4, 8] initial_state evIpl =
      Except.ok { initial_state with
        this_pcrs := extend envFail.H initial_state.this_pcrs 8 dB,
        next_pcrs := extend envFail.H initial_state.next_pcrs 8 dB } ∧
    extend envFail.H initial_state.next_pcrs 8 dB 8 =
      extend envFail.H initial_state.this_pcrs 8 dB 8 :=
  ⟨(C5_ipl_graceful_fallback envFail argsVerbose [0, 4, 8] initial_state evIpl dB
      rfl (by decide) (by decide) rfl rfl).1,
   (C5_ipl_graceful_fallback envFail argsVerbose [0, 4, 8] initial_state evIpl dB
      rfl (by decide) (by decide) rfl rfl).2 rfl⟩

/-- C6: an entry with no extend digest, an entry whose register index
is the virtual sentinel, and a NO_ACTION entry each leave the whole
loop state — in particular both PCR mappings — unchanged. -/
theorem C6_skipped_entries_no_fold :
    ∀ (env : Env) (args : Args) (wanted_pcrs : List Nat) (s : LoopState) (e : Event),
      (e.pcr_extend_value = none →
        process_event env args wanted_pcrs s e = Except.ok s) ∧
      (∀ v, e.pcr_extend_value = some v → e.pcr_idx = VIRTUAL_PCR_SENTINEL →
        process_event env args wanted_pcrs s e = Except.ok s) ∧
      (∀ v, e.pcr_extend_value = some v → e.pcr_idx ≠ VIRTUAL_PCR_SENTINEL →
        e.event_type = TpmEventType.NO_ACTION →
        process_event env args wanted_pcrs s e = Except.ok s) := by
  intro env args wanted_pcrs s e
  exact ⟨fun hev => process_event_no_extend env args wanted_pcrs s e hev,
    fun v hev hidx => process_event_sentinel env args wanted_pcrs s e v hev hidx,
    fun v hev hidx htype => process_event_noaction env args wanted_pcrs s e v hev hidx htype⟩

theorem C6_skipped_entries_no_fold_witness :
    process_event envFail argsVerbose [0, 4, 8] initial_state
      { pcr_idx := 2, event_type := TpmEventType.Other 9, event_data := [1],
        pcr_extend_value := none } = Except.ok initial_state ∧
    process_event envFail argsVerbose [0, 4, 8] initial_state
      { pcr_idx := VIRTUAL_PCR_SENTINEL, event_type := TpmEventType.Other 9,
        event_data := [], pcr_extend_value := some dA } = Except.ok initial_state ∧
    process_event envFail argsVerbose [0, 4, 8] initial_state evNoAction =
      Except.ok initial_state :=
  ⟨(C6_skipped_entries_no_fold envFail argsVerbose [0, 4, 8] initial_state _).1 rfl,
   (C6_skipped_entries_no_fold envFail argsVerbose [0, 4, 8] initial_state _).2.1
     dA rfl rfl,
   (C6_skipped_entries_no_fold envFail argsVerbose [0, 4, 8] initial_state
     evNoAction).2.2 dA rfl (by decide) rfl⟩

/-! ## Agreement of the two chains in the absence of divergent entries -/

theorem extend_preserves_agreement (H : List Nat → List Nat)
    (this next : Nat → List Nat) (index : Nat) (v : List Nat) (i : Nat)
    (heq : next i = this i) :
    extend H next index v i = extend H this index v i := by
  by_cases hi : i = index
  · subst hi
    rw [extend_self, extend_self, heq]
  · rw [extend_other _ _ _ _ hi, extend_other _ _ _ _ hi]
    exact heq

theorem process_event_preserves_agreement (env : Env) (args : Args)
    (wanted_pcrs : List Nat) (s s2 : LoopState) (e : Event) (i : Nat)
    (h : process_event env args wanted_pcrs s e = Except.ok s2)
    (hnd : e.pcr_idx = i →
      classified_divergent env wanted_pcrs s.last_efi_binary e = false)
    (heq : s.next_pcrs i = s.this_pcrs i) :
    s2.next_pcrs i = s2.this_pcrs i := by
  obtain ⟨idx, et, ed, ev⟩ := e
  cases ev with
  | none =>
    rw [process_event_no_extend env args wanted_pcrs s _ rfl] at h
    cases h
    exact heq
  | some v =>
    by_cases hidx : idx = VIRTUAL_PCR_SENTINEL
    · rw [process_event_sentinel env args wanted_pcrs s _ v rfl hidx] at h
      cases h
      exact heq
    · cases et with
      | EFI_BOOT_SERVICES_APPLICATION =>
        cases hres : env.device_path_to_unix_path ed with
        | some p =>
          have hne : idx ≠ i := by
            intro hii
            have hc := hnd hii
            simp [classified_divergent, hres, hidx] at hc
          rw [process_event_bsa_ok env args wanted_pcrs s _ v p rfl hidx rfl hres] at h
          cases h
          show extend env.H s.next_pcrs idx _ i = extend env.H s.this_pcrs idx _ i
          rw [extend_other _ _ _ _ (Ne.symm hne), extend_other _ _ _ _ (Ne.symm hne)]
          exact heq
        | none =>
          cases hverb : args.verbose with
          | true =>
            rw [process_event_bsa_fail_verbose env args wanted_pcrs s _ v
              rfl hidx rfl hres hverb] at h
            cases h
            exact heq
          | false =>
            rw [process_event_bsa_fail_strict env args wanted_pcrs s _ v
              rfl hidx rfl hres hverb] at h
            cases h
      | IPL =>
        by_cases hw : idx ∈ wanted_pcrs
        · cases hcl : env.loader_get_next_cmdline s.last_efi_binary with
          | some c =>
            have hne : idx ≠ i := by
              intro hii
              have hc := hnd hii
              simp [classified_divergent, hcl, hidx, hw] at hc
            rw [process_event_ipl_predicted env args wanted_pcrs s _ v c
              rfl hidx rfl hw hcl] at h
            cases h
            show extend env.H s.next_pcrs idx _ i = extend env.H s.this_pcrs idx _ i
            rw [extend_other _ _ _ _ (Ne.symm hne), extend_other _ _ _ _ (Ne.symm hne)]
            exact heq
          | none =>
            rw [process_event_ipl_fallback env args wanted_pcrs s _ v
              rfl hidx rfl hw hcl] at h
            cases h
            exact extend_preserves_agreement env.H s.this_pcrs s.next_pcrs idx v i heq
        · rw [process_event_ipl_unwanted env args wanted_pcrs s _ v rfl hidx rfl hw] at h
          cases h
          exact extend_preserves_agreement env.H s.this_pcrs s.next_pcrs idx v i heq
      | NO_ACTION =>
        rw [process_event_noaction env args wanted_pcrs s _ v rfl hidx rfl] at h
        cases h
        exact heq
      | Other t =>
        rw [process_event_other_type env args wanted_pcrs s _ v t rfl hidx rfl] at h
        cases h
        exact extend_preserves_agreement env.H s.this_pcrs s.next_pcrs idx v i heq

theorem run_events_preserves_agreement (env : Env) (args : Args)
    (wanted_pcrs : List Nat) (i : Nat) :
    ∀ (events : List Event) (s s2 : LoopState),
      s.next_pcrs i = s.this_pcrs i →
      no_divergent_touching env args wanted_pcrs i s events = true →
      run_events env args wanted_pcrs s events = Except.ok s2 →
      s2.next_pcrs i = s2.this_pcrs i := by
  intro events
  induction events with
  | nil =>
    intro s s2 heq _ h
    rw [run_events_nil] at h
    cases h
    exact heq
  | cons e rest ih =>
    intro s s2 heq hnd h
    simp only [no_divergent_touching, Bool.and_eq_true] at hnd
    obtain ⟨hnd1, hnd2⟩ := hnd
    have hclass : e.pcr_idx = i →
        classified_divergent env wanted_pcrs s.last_efi_binary e = false := by
      intro hii
      rcases (by simpa using hnd1 :
          ¬ e.pcr_idx = i ∨
            classified_divergent env wanted_pcrs s.last_efi_binary e = false) with hc | hc
      · exact absurd hii hc
      · exact hc
    cases hp : process_event env args wanted_pcrs s e with
    | error u =>
      cases u
      rw [run_events_abort env args wanted_pcrs rest hp] at h
      cases h
    | ok s1 =>
      rw [run_events_step env args wanted_pcrs rest hp] at h
      rw [hp] at hnd2
      exact ih s1 s2
        (process_event_preserves_agreement env args wanted_pcrs s s1 e i hp hclass heq)
        hnd2 h

/-- C7: at every point of the pass, the predicted state at a register
`i` is bit-identical to the current state at `i` unless some
already-processed entry touching `i` was classified divergent (a BSA
entry with a successfully resolved path, or an IPL entry on a requested
register with a successful command-line prediction).  Stated both for
an arbitrary agreeing start state — which covers every intermediate
point of a longer pass — and for the run's own starting state. -/
theorem C7_agreement_unless_divergent :
    ∀ (env : Env) (args : Args) (wanted_pcrs : List Nat) (i : Nat)
      (events : List Event) (s2 : LoopState),
      (∀ s : LoopState, s.next_pcrs i = s.this_pcrs i →
        no_divergent_touching env args wanted_pcrs i s events = true →
        run_events env args wanted_pcrs s events = Except.ok s2 →
        s2.next_pcrs i = s2.this_pcrs i) ∧
      (no_divergent_touching env args wanted_pcrs i initial_state events = true →
        run_events env args wanted_pcrs initial_state events = Except.ok s2 →
        s2.next_pcrs i = s2.this_pcrs i) := by
  intro env args wanted_pcrs i events s2
  refine ⟨fun s heq hnd h =>
    run_events_preserves_agreement env args wanted_pcrs i events s s2 heq hnd h, ?_⟩
  exact fun hnd h =>
    run_events_preserves_agreement env args wanted_pcrs i events initial_state s2 rfl hnd h

theorem C7_agreement_unless_divergent_witness :
    (get_ok (run_events envFail argsVerbose [0, 4, 8] initial_state [evOtherA, evIpl])
        initial_state).next_pcrs 8 =
      (get_ok (run_events envFail argsVerbose [0, 4, 8] initial_state [evOtherA, evIpl])
        initial_state).this_pcrs 8 :=
  (C7_agreement_unless_divergent envFail argsVerbose [0, 4, 8] 8 [evOtherA, evIpl]
    (get_ok (run_events envFail argsVerbose [0, 4, 8] initial_state [evOtherA, evIpl])
      initial_state)).2 (by decide) rfl

/-- C4 (amended): when a BSA entry's device path fails to resolve, in
best-effort/verbose mode the Error Tally is set to 1 — it becomes
nonzero but repeated failures do not accumulate — the entry's fold is
skipped on both chains, and the pass continues; in strict mode the run
aborts with `Except.error`, `main` exits 1, and no predicted digest set
is written. -/
theorem C4_resolution_failure_modes :
    (∀ (env : Env) (args : Args) (wanted_pcrs : List Nat) (s : LoopState)
      (e : Event) (v : List Nat),
      args.verbose = true →
      e.event_type = TpmEventType.EFI_BOOT_SERVICES_APPLICATION →
      e.pcr_extend_value = some v →
      e.pcr_idx ≠ VIRTUAL_PCR_SENTINEL →
      env.device_path_to_unix_path e.event_data = none →
      process_event env args wanted_pcrs s e = Except.ok { s with errors := 1 }) ∧
    (∀ (env : Env) (args : Args) (wanted_pcrs : List Nat) (s : LoopState)
      (e : Event) (v : List Nat),
      args.verbose = false →
      e.event_type = TpmEventType.EFI_BOOT_SERVICES_APPLICATION →
      e.pcr_extend_value = some v →
      e.pcr_idx ≠ VIRTUAL_PCR_SENTINEL →
      env.device_path_to_unix_path e.event_data = none →
      process_event env args wanted_pcrs s e = Except.error ()) ∧
    (∀ (env : Env) (args : Args) (events : List Event),
      run_events env args (wanted_of args) initial_state events = Except.error () →
      tpm_futurepcr.main env args events =
        { exit_code := 1, table_printed := false, output_written := none }) := by
  refine ⟨fun env args wanted_pcrs s e v hverb htype hev hidx hres =>
      process_event_bsa_fail_verbose env args wanted_pcrs s e v hev hidx htype hres hverb,
    fun env args wanted_pcrs s e v hverb htype hev hidx hres =>
      process_event_bsa_fail_strict env args wanted_pcrs s e v hev hidx htype hres hverb,
    fun env args events hrun => ?_⟩
  simp [tpm_futurepcr.main, hrun]

theorem C4_resolution_failure_modes_witness :
    process_event envFail argsVerbose [0, 4, 8] initial_state evBsa =
      Except.ok { initial_state with errors := 1 } ∧
    process_event envFail argsStrict [0, 4, 8] initial_state evBsa =
      Except.error () ∧
    tpm_futurepcr.main envFail argsStrict [evBsa] =
      { exit_code := 1, table_printed := false, output_written := none } :=
  ⟨C4_resolution_failure_modes.1 envFail argsVerbose [0, 4, 8] initial_state evBsa dA
      rfl rfl rfl (by decide) rfl,
   C4_resolution_failure_modes.2.1 envFail argsStrict [0, 4, 8] initial_state evBsa dA
      rfl rfl rfl (by decide) rfl,
   C4_resolution_failure_modes.2.2 envFail argsStrict [evBsa] rfl⟩

theorem C4_resolution_failure_modes_counterexample :
    (get_ok (run_events envFail argsVerbose [0, 4, 8] initial_state [evBsa, evBsa])
        initial_state).errors = 1 ∧
    ¬ (get_ok (run_events envFail argsVerbose [0, 4, 8] initial_state [evBsa, evBsa])
        initial_state).errors = 2 := by
  constructor
  · rfl
  · decide

/-! ## Compare-mode counting and the final disposition of main -/

theorem count_mismatches_foldl_shift (env : Env) (s : LoopState) :
    ∀ (l : List Nat) (n : Nat),
      l.foldl (fun errors idx =>
        if env.read_current_pcrs idx = s.this_pcrs idx then errors else errors + 1) n =
      n + l.foldl (fun errors idx =>
        if env.read_current_pcrs idx = s.this_pcrs idx then errors else errors + 1) 0 := by
  intro l
  induction l with
  | nil => intro n; simp
  | cons a l ih =>
    intro n
    simp only [List.foldl_cons]
    rw [ih]
    by_cases ha : env.read_current_pcrs a = s.this_pcrs a
    · rw [if_pos ha, if_pos ha]
    · rw [if_neg ha, if_neg ha, Nat.zero_add, ih 1]
      omega

theorem count_mismatches_zero_iff (env : Env) (s : LoopState) :
    ∀ l : List Nat, count_mismatches env s l = 0 ↔
      ∀ idx ∈ l, env.read_current_pcrs idx = s.this_pcrs idx := by
  intro l
  induction l with
  | nil => simp [count_mismatches]
  | cons a l ih =>
    simp only [count_mismatches, List.foldl_cons] at ih ⊢
    rw [count_mismatches_foldl_shift]
    by_cases ha : env.read_current_pcrs a = s.this_pcrs a
    · rw [if_pos ha]
      simp [ha, ih]
    · rw [if_neg ha]
      simp [ha]

theorem main_compare_disposition (env : Env) (args : Args) (events : List Event)
    (s : LoopState) (hc : args.compare = true)
    (hrun : run_events env args (wanted_of args) initial_state events = Except.ok s) :
    tpm_futurepcr.main env args events =
      { exit_code := if count_mismatches env s (wanted_of args) > 0 then 1 else 0,
        table_printed := false, output_written := none } := by
  simp [tpm_futurepcr.main, hrun, hc]

theorem main_noncompare_exit (env : Env) (args : Args) (events : List Event)
    (s : LoopState) (hc : args.compare = false)
    (hrun : run_events env args (wanted_of args) initial_state events = Except.ok s) :
    (tpm_futurepcr.main env args events).exit_code = if s.errors = 0 then 0 else 1 := by
  by_cases he : s.errors = 0
  · cases ho : args.output with
    | none => simp [tpm_futurepcr.main, hrun, hc, he, ho]
    | some f => simp [tpm_futurepcr.main, hrun, hc, he, ho]
  · simp [tpm_futurepcr.main, hrun, hc, he]

theorem main_output_bytes (env : Env) (args : Args) (events : List Event)
    (s : LoopState) (f : Nat) (hc : args.compare = false)
    (hrun : run_events env args (wanted_of args) initial_state events = Except.ok s)
    (he : s.errors = 0) (ho : args.output = some f) :
    (tpm_futurepcr.main env args events).output_written =
      some (((wanted_of args).map s.next_pcrs).flatten) := by
  simp [tpm_futurepcr.main, hrun, hc, he, ho]

/-- C8 (amended): the exit status is 1 after a strict-mode resolution
abort; in compare mode it is 0 exactly when every requested register's
live value equals the computed current value (any single mismatch gives
1); in non-compare mode it is 0 exactly when the Error Tally is zero —
regardless of whether output was requested. -/
theorem C8_exit_disposition :
    (∀ (env : Env) (args : Args) (events : List Event),
      run_events env args (wanted_of args) initial_state events = Except.error () →
      (tpm_futurepcr.main env args events).exit_code = 1) ∧
    (∀ (env : Env) (args : Args) (events : List Event) (s : LoopState),
      args.compare = true →
      run_events env args (wanted_of args) initial_state events = Except.ok s →
      ((tpm_futurepcr.main env args events).exit_code = 0 ↔
        ∀ idx ∈ wanted_of args, env.read_current_pcrs idx = s.this_pcrs idx)) ∧
    (∀ (env : Env) (args : Args) (events : List Event) (s : LoopState),
      args.compare = false →
      run_events env args (wanted_of args) initial_state events = Except.ok s →
      ((tpm_futurepcr.main env args events).exit_code = 0 ↔ s.errors = 0)) := by
  refine ⟨fun env args events hrun => ?_, fun env args events s hc hrun => ?_,
    fun env args events s hc hrun => ?_⟩
  · simp [tpm_futurepcr.main, hrun]
  · have hiff := count_mismatches_zero_iff env s (wanted_of args)
    by_cases h0 : count_mismatches env s (wanted_of args) = 0
    · simp [main_compare_disposition env args events s hc hrun, h0]
      exact hiff.mp h0
    · simp [main_compare_disposition env args events s hc hrun, Nat.pos_of_ne_zero h0]
      have hne : ¬ ∀ idx ∈ wanted_of args, env.read_current_pcrs idx = s.this_pcrs idx :=
        fun hall => h0 (hiff.mpr hall)
      push_neg at hne
      exact hne
  · rw [main_noncompare_exit env args events s hc hrun]
    by_cases he : s.errors = 0
    · simp [he]
    · simp [he]

theorem C8_exit_disposition_witness :
    (tpm_futurepcr.main envFail argsStrict [evBsa]).exit_code = 1 ∧
    (tpm_futurepcr.main envFail argsCompare []).exit_code = 0 ∧
    (tpm_futurepcr.main envFail argsVerbose []).exit_code = 0 :=
  ⟨C8_exit_disposition.1 envFail argsStrict [evBsa] rfl,
   (C8_exit_disposition.2.1 envFail argsCompare [] initial_state rfl rfl).mpr (by decide),
   (C8_exit_disposition.2.2 envFail argsVerbose [] initial_state rfl rfl).mpr rfl⟩

theorem C8_exit_disposition_counterexample :
    (tpm_futurepcr.main envFail argsOut [evBsa]).exit_code = 1 ∧
    argsOut.compare = false ∧
    argsOut.output = some 7 ∧
    argsOut.verbose = true ∧
    run_events envFail argsOut (wanted_of argsOut) initial_state [evBsa] =
      Except.ok (get_ok (run_events envFail argsOut (wanted_of argsOut)
        initial_state [evBsa]) initial_state) ∧
    (get_ok (run_events envFail argsOut (wanted_of argsOut) initial_state [evBsa])
        initial_state).errors = 1 :=
  ⟨rfl, rfl, rfl, rfl, rfl, rfl⟩

/-- C9 (amended): in output mode the bytes written are exactly the
predicted digests of the requested register indices concatenated in the
order the indices were requested, with no delimiters and no header; the
default register list (no `-L` option) is in strictly ascending order. -/
theorem C9_output_request_order :
    ∀ (env : Env) (args : Args) (events : List Event) (s : LoopState) (f : Nat),
      args.compare = false →
      args.output = some f →
      run_events env args (wanted_of args) initial_state events = Except.ok s →
      s.errors = 0 →
      (tpm_futurepcr.main env args events).output_written =
        some (((wanted_of args).map s.next_pcrs).flatten) ∧
      (args.pcr_list = none → List.Sorted (· < ·) (wanted_of args)) := by
  intro env args events s f hc ho hrun he
  refine ⟨main_output_bytes env args events s f hc hrun he ho, fun hp => ?_⟩
  have hw : wanted_of args = List.range NUM_PCRS := by
    simp [wanted_of, hp]
  rw [hw]
  exact List.sorted_lt_range NUM_PCRS

theorem C9_output_request_order_witness :
    (tpm_futurepcr.main envFail argsDescending []).output_written =
      some (((wanted_of argsDescending).map initial_state.next_pcrs).flatten) :=
  (C9_output_request_order envFail argsDescending [] initial_state 7 rfl rfl rfl rfl).1

theorem C9_output_request_order_counterexample :
    (tpm_futurepcr.main envFail argsDescending []).output_written =
      some (List.replicate PCR_SIZE 255 ++ List.replicate PCR_SIZE 0) ∧
    ¬ (tpm_futurepcr.main envFail argsDescending []).output_written =
      some (List.replicate PCR_SIZE 0 ++ List.replicate PCR_SIZE 255) := by
  constructor
  · decide
  · decide

/-- C10: in compare mode the exit status depends only on the
live-versus-computed comparison (the mismatch count restarts at zero,
so pass-time tally values never force a nonzero exit), and the process
exits right after comparing: the final table is not printed and the
output file is never written. -/
theorem C10_compare_mode_isolation :
    ∀ (env : Env) (args : Args) (events : List Event) (s : LoopState),
      args.compare = true →
      run_events env args (wanted_of args) initial_state events = Except.ok s →
      tpm_futurepcr.main env args events =
        { exit_code := if count_mismatches env s (wanted_of args) > 0 then 1 else 0,
          table_printed := false, output_written := none } ∧
      (count_mismatches env s (wanted_of args) = 0 →
        (tpm_futurepcr.main env args events).exit_code = 0) := by
  intro env args events s hc hrun
  refine ⟨main_compare_disposition env args events s hc hrun, fun h0 => ?_⟩
  rw [main_compare_disposition env args events s hc hrun]
  simp [h0]

theorem C10_compare_mode_isolation_witness :
    tpm_futurepcr.main envFail argsCompareVerbose [evBsa] =
      { exit_code := 0, table_printed := false, output_written := none } ∧
    (get_ok (run_events envFail argsCompareVerbose (wanted_of argsCompareVerbose)
        initial_state [evBsa]) initial_state).errors = 1 := by
  constructor
  · have h := C10_compare_mode_isolation envFail argsCompareVerbose [evBsa]
      (get_ok (run_events envFail argsCompareVerbose (wanted_of argsCompareVerbose)
        initial_state [evBsa]) initial_state) rfl rfl
    rw [h.1]
    decide
  · rfl
